import Mathlib

/-!
Verification development for the negotiation orchestration and settlement
verification engine of the agent-commerce backend.

The definitions below are a shallow embedding of the Python source:

* `backend/agents/shopping_agent.py`   — buyer decision agent (`ShoppingAgent`)
* `backend/agents/merchant_agent.py`   — seller decision agent (`MerchantAgent`)
* `backend/services/shopping_service.py` — negotiation orchestrator
  (`ShoppingService.start_shopping`) and offer selection
* `backend/utils/chaoschain.py`        — settlement executor
  (`execute_x402_payment`)

Prices are modelled as exact rationals.  The language-model calls are
modelled as oracles: an invocation either raises (`crashed`), returns text
from which no JSON object can be extracted (`noJson`), or returns a parsed
JSON object with optional fields (`parsed`).  Free-text message strings are
abbreviated to fixed constants; no branch of the code inspects message
content, only the structured fields.
-/

/-- One transcript entry, as appended by `start_shopping` to `conversation`
(`shopping_service.py:193` and `:257`), extended with the 1-based round
number used when persisting the entry (`round_number=round_num + 1`). -/
structure Msg where
  round : Nat
  sender : String
  message : String
  proposed_price : ℚ
  accept : Bool
  reject : Bool
deriving DecidableEq, Repr

/-- The structured response dictionary both agents return from their
`negotiate_*` methods: message, proposed price, accept/reject flags, reason. -/
structure NegResponse where
  message : String
  proposed_price : ℚ
  accept : Bool
  reject : Bool
  reason : String
deriving DecidableEq, Repr

/-- A JSON object successfully extracted from the decision-service response
text; every field may be absent (`result.get` / `result.setdefault`). -/
structure RawResult where
  message : Option String
  proposed_price : Option ℚ
  accept : Option Bool
  reject : Option Bool
  reason : Option String
deriving DecidableEq, Repr

/-- Outcome of one decision-service (LLM) invocation as seen by the agent
code: the call raised (both the direct call and the ReAct fallback), or it
returned text with no extractable JSON, or a JSON object was parsed. -/
inductive LLMOutcome where
  | crashed
  | noJson
  | parsed (responseText : String) (r : RawResult)
deriving DecidableEq, Repr

/-- Python `round(q, 2)` (banker's rounding to two decimals), modelled as
exact half-even rounding of a rational. -/
def roundHalfEven (q : ℚ) : ℤ :=
  let f := Int.floor q
  let frac := q - f
  if frac < 1/2 then f
  else if 1/2 < frac then f + 1
  else if f % 2 = 0 then f else f + 1

/-- `round(q, 2)` from `merchant_agent.py` (minimum and counter prices are
rounded to cents). -/
def round2 (q : ℚ) : ℚ := (roundHalfEven (q * 100) : ℚ) / 100

/-! ## Buyer decision agent (`ShoppingAgent.negotiate_with_merchant`) -/

/-- `shopping_agent.py:224-228`: the reference price is the last transcript
entry's proposed price when it is set and non-zero (Python truthiness),
otherwise the merchant's initial price. -/
def clientCurrentPrice (initial : ℚ) (conv : List Msg) : ℚ :=
  match conv.getLast? with
  | none => initial
  | some m => if m.proposed_price = 0 then initial else m.proposed_price

/-- `shopping_agent.py:336-341`: proposed prices of the merchant entries
among the last four transcript entries. -/
def recentMerchantPrices (conv : List Msg) : List ℚ :=
  ((conv.reverse.take 4).reverse).filterMap
    (fun m => if m.sender = "merchant" then some m.proposed_price else none)

/-- `shopping_agent.py:377-388`: deterministic buyer fallback when no JSON
could be extracted — offer `initial * 0.9`, clamped to the budget. -/
def buyerFallback (product_name : String) (initial : ℚ) (budget : Option ℚ) :
    NegResponse :=
  let fp := initial * 0.9
  let fp := match budget with
    | some b => min fp b
    | none => fp
  { message := "I am interested in " ++ product_name ++
      ". Can we negotiate a better price?"
    proposed_price := fp
    accept := false
    reject := false
    reason := "Initial negotiation attempt" }

/-- `shopping_agent.py:390-399`: response returned when the whole
negotiation body raised — note the proposed price is the merchant's initial
price, with no budget clamp. -/
def buyerErrorFallback (product_name : String) (initial : ℚ) : NegResponse :=
  { message := "I need to consider this offer for " ++ product_name ++
      ". Can we discuss the terms?"
    proposed_price := initial
    accept := false
    reject := false
    reason := "Error occurred during negotiation" }

/-- `shopping_agent.py:303-370`: post-processing of a successfully parsed
JSON response.  The mutable dictionary is modelled by threading the
optional `accept` / `reject` / `reason` fields and the message; the
`proposed_price` entry written at lines 330 and 360 is dead because line
365 unconditionally overwrites it with the local `proposed_price`. -/
def processBuyerParsed (initial : ℚ) (conv : List Msg) (budget : Option ℚ)
    (responseText : String) (r : RawResult) : NegResponse :=
  let current_price := clientCurrentPrice initial conv
  let msg0 := r.message.getD responseText
  let pp0 := r.proposed_price.getD (initial * 0.9)
  match budget with
  | none =>
    { message := msg0
      proposed_price := pp0
      accept := r.accept.getD false
      reject := r.reject.getD false
      reason := r.reason.getD "Negotiating" }
  | some b =>
    -- lines 314-321: strict budget clamp on the proposed price
    let st1 : ℚ × String × Option Bool × Option String :=
      if b < pp0 then
        (b, "I can offer up to my budget limit. Can we work with this price?",
          some false, some "Budget constraint - cannot exceed budget")
      else (pp0, msg0, r.accept, r.reason)
    let pp := st1.1
    let msg1 := st1.2.1
    let acc1 := st1.2.2.1
    let reason1 := st1.2.2.2
    -- lines 323-332: never accept when the current or proposed price
    -- exceeds the budget
    let st2 : Option Bool × String × Option String :=
      if acc1.getD false then
        if b < current_price ∨ b < pp then
          (some false,
            "I cannot accept any price above my budget limit.",
            some "Cannot accept - exceeds budget")
        else (acc1, msg1, reason1)
      else (acc1, msg1, reason1)
    let acc2 := st2.1
    let msg2 := st2.2.1
    let reason2 := st2.2.2
    -- lines 334-349: explicit rejection after four or more transcript
    -- entries whose recent merchant prices all exceed the budget
    let st3 : Option Bool × Option Bool × String × Option String :=
      if 4 ≤ conv.length then
        let rmp := recentMerchantPrices conv
        if ¬rmp.isEmpty ∧ ∀ p ∈ rmp, b < p then
          if b * 1.1 < current_price then
            (some true, some false,
              "I cannot proceed. Your prices consistently exceed my budget.",
              some "Merchant prices consistently exceed budget")
          else (r.reject, acc2, msg2, reason2)
        else (r.reject, acc2, msg2, reason2)
      else (r.reject, acc2, msg2, reason2)
    let rej3 := st3.1
    let acc3 := st3.2.1
    let msg3 := st3.2.2.1
    let reason3 := st3.2.2.2
    -- lines 351-363: auto-accept when the last entry is the merchant's and
    -- both the current and proposed prices fit the budget
    let st4 : Option Bool × Option Bool × String × Option String :=
      match conv.getLast? with
      | some last =>
        if last.sender = "merchant" ∧ current_price ≤ b then
          if pp ≤ b then
            (some true, some false,
              "I accept your offer. This is within my budget.",
              some "Merchant accepted and price is within budget")
          else (acc3, rej3, msg3, reason3)
        else (acc3, rej3, msg3, reason3)
      | none => (acc3, rej3, msg3, reason3)
    let acc4 := st4.1
    let rej4 := st4.2.1
    let msg4 := st4.2.2.1
    let reason4 := st4.2.2.2
    -- lines 365-368: final `proposed_price` write and `setdefault`s
    { message := msg4
      proposed_price := pp
      accept := acc4.getD false
      reject := rej4.getD false
      reason := reason4.getD "Negotiating" }

/-- `ShoppingAgent.negotiate_with_merchant` (`shopping_agent.py:202-399`)
as a function of the decision-service outcome. -/
def negotiateWithMerchant (product_name : String) (initial : ℚ)
    (conv : List Msg) (budget : Option ℚ) (outcome : LLMOutcome) :
    NegResponse :=
  match outcome with
  | .crashed => buyerErrorFallback product_name initial
  | .noJson => buyerFallback product_name initial budget
  | .parsed text r => processBuyerParsed initial conv budget text r

/-! ## Seller decision agent (`MerchantAgent.negotiate_with_buyer`) -/

/-- `merchant_agent.py:189`: discount (in percent) the buyer's offer asks
for relative to the initial price. -/
def merchantDiscount (initial offer : ℚ) : ℚ :=
  if 0 < initial then (initial - offer) / initial * 100 else 0

/-- `merchant_agent.py:279-280`: the minimum acceptable price
`round(initial * (1 - pct / 100), 2)`. -/
def merchantMinPrice (initial pct : ℚ) : ℚ :=
  round2 (initial * (1 - pct / 100))

/-- `merchant_agent.py:264-270`: defaulting of missing fields on a
successfully parsed seller response. -/
def processMerchantParsed (responseText : String) (buyer_offer : ℚ)
    (r : RawResult) : NegResponse :=
  { message := r.message.getD responseText
    proposed_price := r.proposed_price.getD buyer_offer
    accept := r.accept.getD false
    reject := r.reject.getD false
    reason := r.reason.getD "Negotiating" }

/-- `merchant_agent.py:277-341`: deterministic seller fallback when no JSON
could be extracted. -/
def merchantFallback (pct : Option ℚ) (initial buyer_offer : ℚ) :
    NegResponse :=
  let discount := merchantDiscount initial buyer_offer
  match pct with
  | some c =>
    let minP := merchantMinPrice initial c
    if minP ≤ buyer_offer then
      if discount ≤ c * 0.7 then
        { message := "I accept your offer. Lets proceed!"
          proposed_price := buyer_offer
          accept := true
          reject := false
          reason := "Offer is above minimum price and within acceptable discount" }
      else
        { message := "I can offer my best price. This is my minimum acceptable price."
          proposed_price := round2 (max minP ((initial + buyer_offer) / 2))
          accept := false
          reject := false
          reason := "Counter-offer at minimum price" }
    else
      if buyer_offer < minP * 0.8 then
        { message := "Your offer is too far below my minimum price. I cannot proceed with this negotiation."
          proposed_price := minP
          accept := false
          reject := true
          reason := "Buyer offer too far below minimum price" }
      else
        { message := "Your offer is below my minimum price. I can go as low as my minimum."
          proposed_price := minP
          accept := false
          reject := false
          reason := "Buyer offer below minimum price" }
  | none =>
    if discount ≤ 15 then
      { message := "I accept your offer. Lets proceed!"
        proposed_price := buyer_offer
        accept := true
        reject := false
        reason := "Reasonable discount within acceptable margin" }
    else
      { message := "I can offer my best price."
        proposed_price := (initial + buyer_offer) / 2
        accept := false
        reject := false
        reason := "Counter-offer to meet in the middle" }

/-- `merchant_agent.py:343-385`: response returned when the whole
negotiation body raised. -/
def merchantErrorFallback (pct : Option ℚ) (initial buyer_offer : ℚ)
    (product_name : String) : NegResponse :=
  let discount := merchantDiscount initial buyer_offer
  match pct with
  | some c =>
    let minP := merchantMinPrice initial c
    if minP ≤ buyer_offer then
      { message := "I can accept your offer for " ++ product_name ++ "."
        proposed_price := buyer_offer
        accept := true
        reject := false
        reason := "Acceptable offer above minimum" }
    else
      { message := "I can offer my minimum price for " ++ product_name ++ "."
        proposed_price := minP
        accept := false
        reject := false
        reason := "Minimum price constraint" }
  | none =>
    if discount ≤ 15 then
      { message := "I can accept your offer for " ++ product_name ++ "."
        proposed_price := buyer_offer
        accept := true
        reject := false
        reason := "Acceptable discount (fallback)" }
    else
      { message := "I can offer a better price for " ++ product_name ++ "."
        proposed_price := initial * 0.9
        accept := false
        reject := false
        reason := "Error occurred, using fallback counter-offer" }

/-- `MerchantAgent.negotiate_with_buyer` (`merchant_agent.py:167-385`) as a
function of the decision-service outcome. -/
def negotiateWithBuyer (pct : Option ℚ) (product_name : String)
    (initial buyer_offer : ℚ) (outcome : LLMOutcome) : NegResponse :=
  match outcome with
  | .crashed => merchantErrorFallback pct initial buyer_offer product_name
  | .noJson => merchantFallback pct initial buyer_offer
  | .parsed text r => processMerchantParsed text buyer_offer r

/-! ## Negotiation orchestrator (`ShoppingService.start_shopping`) -/

/-- In-loop negotiation state of `start_shopping`
(`shopping_service.py:170-173`): the transcript so far, the reference
price, the agreed flag and the final message. -/
structure LoopState where
  conversation : List Msg
  current_price : ℚ
  agreed : Bool
  final_message : String
deriving DecidableEq, Repr

/-- Initial loop state (`conversation = []`, `current_price =
initial_price`, `agreed = False`, `final_message = ""`). -/
def initLoopState (initial : ℚ) : LoopState :=
  { conversation := [], current_price := initial, agreed := false,
    final_message := "" }

/-- `budget is not None and price > budget`. -/
def exceedsBudget (budget : Option ℚ) (price : ℚ) : Bool :=
  match budget with
  | none => false
  | some b => decide (b < price)

/-- `budget is None or price <= budget`. -/
def withinBudget (budget : Option ℚ) (price : ℚ) : Bool :=
  match budget with
  | none => true
  | some b => decide (price ≤ b)

/-- Client half of one round (`shopping_service.py:190-240`), given the
client agent's response `c`.  `Sum.inr` is a `break` out of the round loop
with the final state; `Sum.inl (st, client_price)` continues to the
merchant half, carrying the client's proposed price (the `buyer_offer`
argument of the merchant call). -/
def clientPhase (budget : Option ℚ) (roundNum : Nat) (c : NegResponse)
    (st : LoopState) : (LoopState × ℚ) ⊕ LoopState :=
  let conv1 := st.conversation ++
    [{ round := roundNum + 1, sender := "client", message := c.message,
       proposed_price := c.proposed_price, accept := c.accept,
       reject := c.reject }]
  if c.reject then
    -- lines 220-224: explicit rejection ends the negotiation
    Sum.inr { conversation := conv1, current_price := st.current_price,
              agreed := false, final_message := c.message }
  else if c.accept then
    if exceedsBudget budget st.current_price then
      -- lines 228-234: over-budget acceptance is overridden; continue
      Sum.inl ({ conversation := conv1, current_price := st.current_price,
                 agreed := false, final_message := st.final_message },
               c.proposed_price)
    else
      -- lines 235-240: accept and terminate
      Sum.inr { conversation := conv1, current_price := c.proposed_price,
                agreed := true, final_message := c.message }
  else
    Sum.inl ({ conversation := conv1, current_price := st.current_price,
               agreed := st.agreed, final_message := st.final_message },
             c.proposed_price)

/-- Merchant half of one round (`shopping_service.py:254-320`), given the
merchant agent's response `m` and the state after the client half.
`Sum.inr` breaks out of the loop; `Sum.inl` carries the state into the
next round (including the `current_price = merchant_price` write at line
320). -/
def merchantPhase (budget : Option ℚ) (maxRounds roundNum : Nat)
    (m : NegResponse) (st : LoopState) : LoopState ⊕ LoopState :=
  let conv2 := st.conversation ++
    [{ round := roundNum + 1, sender := "merchant", message := m.message,
       proposed_price := m.proposed_price, accept := m.accept,
       reject := m.reject }]
  if m.reject then
    -- lines 284-288: explicit rejection ends the negotiation
    Sum.inr { conversation := conv2, current_price := st.current_price,
              agreed := false, final_message := m.message }
  else if m.accept then
    -- line 291: current_price = merchant_price
    if exceedsBudget budget m.proposed_price then
      -- lines 293-303: over-budget acceptance is not an agreement
      if roundNum = maxRounds - 1 then
        Sum.inr { conversation := conv2, current_price := m.proposed_price,
                  agreed := false,
                  final_message := "Negotiation failed: Merchant accepted a price that exceeds budget" }
      else
        Sum.inl { conversation := conv2, current_price := m.proposed_price,
                  agreed := false, final_message := st.final_message }
    else
      -- lines 304-318: within budget
      if roundNum = maxRounds - 1 then
        if withinBudget budget m.proposed_price then
          Sum.inr { conversation := conv2, current_price := m.proposed_price,
                    agreed := true, final_message := m.message }
        else
          Sum.inr { conversation := conv2, current_price := m.proposed_price,
                    agreed := false, final_message := m.message }
      else
        Sum.inl { conversation := conv2, current_price := m.proposed_price,
                  agreed := st.agreed, final_message := m.message }
  else
    Sum.inl { conversation := conv2, current_price := m.proposed_price,
              agreed := st.agreed, final_message := st.final_message }

/-- One iteration of the round loop.  The two oracles model the agent
calls: `none` models the call raising, which the service answers with
`break` (`shopping_service.py:186-188` and `:250-252`). -/
def roundStep (budget : Option ℚ) (maxRounds : Nat)
    (clientO : Nat → List Msg → Option NegResponse)
    (merchantO : Nat → ℚ → List Msg → Option NegResponse)
    (roundNum : Nat) (st : LoopState) : LoopState ⊕ LoopState :=
  match clientO roundNum st.conversation with
  | none => Sum.inr st
  | some c =>
    match clientPhase budget roundNum c st with
    | Sum.inr stF => Sum.inr stF
    | Sum.inl (st1, clientPrice) =>
      match merchantO roundNum clientPrice st1.conversation with
      | none => Sum.inr st1
      | some m => merchantPhase budget maxRounds roundNum m st1

/-- The round loop `for round_num in range(max_rounds)`
(`shopping_service.py:175-320`), with `fuel` rounds still to run:
`round_num = maxRounds - fuel` counts `0, 1, ..., maxRounds - 1` as
`fuel` counts down from `maxRounds`. -/
def negotiationLoop (budget : Option ℚ) (maxRounds : Nat)
    (clientO : Nat → List Msg → Option NegResponse)
    (merchantO : Nat → ℚ → List Msg → Option NegResponse) :
    Nat → LoopState → LoopState
  | 0, st => st
  | fuel + 1, st =>
    match roundStep budget maxRounds clientO merchantO
        (maxRounds - (fuel + 1)) st with
    | Sum.inl st1 => negotiationLoop budget maxRounds clientO merchantO fuel st1
    | Sum.inr stF => stF

/-- One whole negotiation with one merchant, from the initial state. -/
def runNegotiation (budget : Option ℚ) (initial : ℚ) (maxRounds : Nat)
    (clientO : Nat → List Msg → Option NegResponse)
    (merchantO : Nat → ℚ → List Msg → Option NegResponse) : LoopState :=
  negotiationLoop budget maxRounds clientO merchantO maxRounds
    (initLoopState initial)

/-- `shopping_service.py:322-329`: post-loop budget check — an agreed
result whose price exceeds the budget is demoted to not agreed. -/
def finalCheck (budget : Option ℚ) (st : LoopState) : LoopState :=
  if st.agreed && exceedsBudget budget st.current_price then
    { st with
      agreed := false
      final_message := "Negotiation failed: Final price exceeds budget" }
  else st

/-- `conversation[-2:]`. -/
def lastTwo (l : List Msg) : List Msg := l.drop (l.length - 2)

/-- `shopping_service.py:334-341`: derivation of the terminal status
recorded on the negotiation. -/
def finalStatus (budget : Option ℚ) (st : LoopState) : String :=
  if st.agreed && withinBudget budget st.current_price then "agreed"
  else if (lastTwo st.conversation).any (fun m => m.reject) then "rejected"
  else "failed"

/-- `shopping_service.py:362`: the `agreed` flag stored on the offer —
agreed and within budget. -/
def offerAgreed (budget : Option ℚ) (st : LoopState) : Bool :=
  st.agreed && withinBudget budget st.current_price

/-- Project either side of a `break`/`continue` sum to the carried state. -/
def stateOf (s : LoopState ⊕ LoopState) : LoopState := Sum.elim id id s

/-! ## Offer selection (`start_shopping` lines 385-412 and
`ShoppingAgent.select_best_offer`) -/

/-- The denormalized negotiation result compared across sellers
(`shopping_service.py:354-365`); fields not used by selection are
omitted except the merchant id, kept to distinguish offers. -/
structure Offer where
  merchant_agent_id : String
  negotiated_price : ℚ
  agreed : Bool
deriving DecidableEq, Repr

/-- Python `min(a :: l, key=price)`: fold keeping the current element
unless a later one is strictly cheaper (first minimum wins). -/
def minFrom (a : Offer) (l : List Offer) : Offer :=
  l.foldl
    (fun acc x => if x.negotiated_price < acc.negotiated_price then x else acc)
    a

/-- Python `min(offers, key=price)` on a possibly empty list. -/
def argminPrice : List Offer → Option Offer
  | [] => none
  | a :: t => some (minFrom a t)

/-- Stable insertion by price (auxiliary for `sortByPrice`). -/
def insertByPrice (o : Offer) : List Offer → List Offer
  | [] => [o]
  | x :: xs =>
    if o.negotiated_price ≤ x.negotiated_price then o :: x :: xs
    else x :: insertByPrice o xs

/-- Python `sorted(offers, key=price)` — a stable sort by negotiated
price (`shopping_service.py:395`). -/
def sortByPrice (l : List Offer) : List Offer := l.foldr insertByPrice []

/-- `ShoppingAgent.select_best_offer` (`shopping_agent.py:401-472`).
`llmChoice` is the 1-based `selected_offer_index` parsed from the
decision-service response, `none` when that response is unavailable or
unparsable; an out-of-range index also falls through to the
deterministic fallback (lowest price among agreed offers, else lowest
price overall). -/
def selectBestOffer (llmChoice : Option ℤ) (offers : List Offer) :
    Option Offer :=
  if offers.isEmpty then none
  else
    let viaLLM : Option Offer :=
      match llmChoice with
      | some i => if 0 ≤ i - 1 then offers[(i - 1).toNat]? else none
      | none => none
    match viaLLM with
    | some o => some o
    | none =>
      let agreedOffers := offers.filter (fun o => o.agreed)
      if agreedOffers.isEmpty then argminPrice offers
      else argminPrice agreedOffers

/-- The selection pipeline of `start_shopping`
(`shopping_service.py:385-412`): filter to agreed offers within budget,
fall back to all offers sorted by price when that filter is empty, let
the shopping agent pick, and derive the `deal_successful` flag. -/
def serviceSelectOffer (llmChoice : Option ℤ) (budget : Option ℚ)
    (offers : List Offer) : Option (Offer × Bool) :=
  let valid := offers.filter
    (fun o => o.agreed && withinBudget budget o.negotiated_price)
  let valid := if valid.isEmpty then sortByPrice offers else valid
  match selectBestOffer llmChoice valid with
  | none => none
  | some best =>
    some (best, best.agreed && withinBudget budget best.negotiated_price)

/-- Modelled from the spec words (section 4.3): the first offer in input
order whose price is minimal. -/
def firstMinOffer (l : List Offer) : Option Offer :=
  l.find?
    (fun o => l.all (fun x => decide (o.negotiated_price ≤ x.negotiated_price)))

/-- Modelled from the spec words (section 4.3): filter to
agreed-within-budget offers and take the cheapest (first in input order
on ties); when the filter is empty, take the cheapest of all offers and
mark the selection as not deal-qualifying. -/
def specSelectOffer (budget : Option ℚ) (offers : List Offer) :
    Option (Offer × Bool) :=
  let qualifying := offers.filter
    (fun o => o.agreed && withinBudget budget o.negotiated_price)
  match firstMinOffer qualifying with
  | some o => some (o, true)
  | none => (firstMinOffer offers).map (fun o => (o, false))

/-! ## Settlement executor (`execute_x402_payment`, `chaoschain.py:266-745`) -/

/-- Python string truthiness for optional strings: `None` and `""` are
falsy. -/
def truthy : Option String → Option String
  | some s => if s.isEmpty then none else some s
  | none => none

/-- Python `a or b` on optional strings. -/
def pyOr (a b : Option String) : Option String :=
  match truthy a with
  | some s => some s
  | none => b

/-- Python truthiness for optional numbers: `None` and `0` are falsy. -/
def truthyQ : Option ℚ → Option ℚ
  | some q => if q = 0 then none else some q
  | none => none

/-- Case-insensitive address comparison (`.lower()`). -/
def addrEq (a b : String) : Bool := a.toLower == b.toLower

/-- A declared public address disagrees (case-insensitively) with the
wallet-file address; only checked when both are present. -/
def addrMismatch (pa wa : Option String) : Bool :=
  match pa, wa with
  | some p, some w => !(addrEq p w)
  | _, _ => false

/-- Both wallet addresses are present and equal (case-insensitively). -/
def sameWallet (cw mw : Option String) : Bool :=
  match cw, mw with
  | some a, some b => addrEq a b
  | _, _ => false

/-- The x402 payment request returned by the merchant SDK; only its
embedded settlement address is inspected. -/
structure PaymentRequest where
  settlement_address : String
deriving DecidableEq, Repr

/-- The payment result returned by the client SDK's transfer execution;
every attribute is read with a `getattr(..., None)` fallback. -/
structure PaymentResult where
  amount_paid : Option ℚ
  total_amount : Option ℚ
  protocol_fee : Option ℚ
  transaction_hash : Option String
  settlement_address : Option String
deriving DecidableEq, Repr

/-- The dictionary `execute_x402_payment` returns: either the success
record or `status="error"` (all internal raises are caught by the
enclosing `except` at `chaoschain.py:740-745`). -/
inductive PayOutcome where
  | success (transaction_hash : Option String) (settlement_address : String)
      (amount_paid : ℚ) (protocol_fee : ℚ) (evidence_cid : String)
  | error (msg : String)
deriving DecidableEq, Repr

/-- The value of the `status` key of the returned dictionary. -/
def PayOutcome.statusStr : PayOutcome → String
  | .success _ _ _ _ _ => "success"
  | .error _ => "error"

/-- Environment of one `execute_x402_payment` call: its inputs and the
responses of every external collaborator.  For each fallible external
step, `none` models the step raising (or, for `onchain_recipient`, the
ledger query failing or finding no transfer event and no recipient). -/
structure SettlementEnv where
  final_price : ℚ
  client_public_address : Option String
  merchant_public_address : Option String
  /-- outer `none`: reading the wallet file raised; inner option: the
  address recorded in the wallet file, if any. -/
  client_wallet_load : Option (Option String)
  merchant_wallet_load : Option (Option String)
  merchant_has_create : Bool
  client_has_execute : Bool
  create_payment_request : Option PaymentRequest
  merchant_name : Option String
  execute_payment : Option PaymentResult
  onchain_recipient : Option String
  store_evidence : Option String
deriving DecidableEq, Repr

/-- `chaoschain.py:581-738`: extraction of the payment-result fields, the
independent on-ledger recipient verification, and the success record.
`mpa` is the (wallet-defaulted) merchant public address, `cw` the client
wallet address, `mw` the merchant wallet address. -/
def verifyAndFinish (env : SettlementEnv) (mpa cw mw : Option String)
    (pr : PaymentRequest) (res : PaymentResult) : PayOutcome :=
  let amount := ((truthyQ res.amount_paid).orElse
    (fun _ => truthyQ res.total_amount)).getD env.final_price
  let fee := (truthyQ res.protocol_fee).getD 0
  let txh := res.transaction_hash
  let saddr := (truthy res.settlement_address).getD pr.settlement_address
  -- lines 596-638: query the ledger only when a transaction hash exists
  let actual : Option String :=
    if (truthy txh).isSome then env.onchain_recipient else none
  -- line 641
  let verified := (truthy actual).getD saddr
  -- lines 643-662: verified recipient must be the merchant
  let expectedM := truthy (pyOr mpa mw)
  match expectedM with
  | some em =>
    if ¬(verified.isEmpty) ∧ ¬(addrEq verified em) then
      .error "Payment was sent to the wrong address"
    else
      -- lines 664-680: verified recipient must not be the client itself
      match truthy (pyOr env.client_public_address cw) with
      | some ec =>
        if ¬(verified.isEmpty) ∧ addrEq verified ec then
          .error "Payment was sent to the clients own address instead of merchant"
        else
          let saddr2 := (truthy actual).getD saddr
          match env.store_evidence with
          | none => .error "storing evidence raised"
          | some cid => .success txh saddr2 amount fee cid
      | none =>
        let saddr2 := (truthy actual).getD saddr
        match env.store_evidence with
        | none => .error "storing evidence raised"
        | some cid => .success txh saddr2 amount fee cid
  | none =>
    match truthy (pyOr env.client_public_address cw) with
    | some ec =>
      if ¬(verified.isEmpty) ∧ addrEq verified ec then
        .error "Payment was sent to the clients own address instead of merchant"
      else
        let saddr2 := (truthy actual).getD saddr
        match env.store_evidence with
        | none => .error "storing evidence raised"
        | some cid => .success txh saddr2 amount fee cid
    | none =>
      let saddr2 := (truthy actual).getD saddr
      match env.store_evidence with
      | none => .error "storing evidence raised"
      | some cid => .success txh saddr2 amount fee cid

/-- `execute_x402_payment` (`chaoschain.py:266-745`).  The entire body is
wrapped in `try/except Exception`, so every internal `raise` surfaces as
a returned `status="error"` dictionary.  The settlement-address check of
line 403 is repeated verbatim at lines 482 and 515; being identical, it
is embedded once. -/
def executeX402Payment (env : SettlementEnv) : PayOutcome :=
  match env.client_wallet_load with
  | none => .error "reading client wallet file raised"
  | some cw =>
  match env.merchant_wallet_load with
  | none => .error "reading merchant wallet file raised"
  | some mw =>
  -- lines 311-317: declared client address must match the wallet file
  if addrMismatch env.client_public_address cw then
    .error "Client address mismatch"
  -- lines 319-325: declared merchant address must match the wallet file
  else if addrMismatch env.merchant_public_address mw then
    .error "Merchant address mismatch"
  -- lines 336-341: client and merchant must not share a wallet
  else if sameWallet cw mw then
    .error "Client and merchant use the same wallet address"
  else
    -- lines 344-346: default the merchant address from the wallet file
    let mpa := if (truthy env.merchant_public_address).isSome
      then env.merchant_public_address else mw
    -- lines 348-361: both SDKs must expose the x402 methods
    if ¬env.merchant_has_create then
      .error "Merchant SDK does not have create_x402_payment_request"
    else if ¬env.client_has_execute then
      .error "Client SDK does not have execute_x402_crypto_payment"
    else
      match env.create_payment_request with
      | none => .error "creating the payment request raised"
      | some pr =>
        -- lines 402-408 (and 480-487, 514-520): the payment request must
        -- carry the merchant settlement address
        if ¬(addrEq pr.settlement_address ((pyOr mpa (pyOr mw (some ""))).getD "")) then
          .error "Payment request settlement_address does not match merchant address"
        -- lines 489-497: the merchant agent name must be known
        else if (truthy env.merchant_name).isNone then
          .error "Cannot determine merchant agent name from merchant SDK"
        else
          match env.execute_payment with
          | none => .error "executing the payment raised"
          | some res => verifyAndFinish env mpa cw mw pr res

/-! ## Auxiliary definitions used by the theorems below -/

/-- The per-call state of a `ShoppingAgent` instance that the fallback
path can see: the constructor-set identity fields
(`shopping_agent.py:38-39`).  The fallback at lines 377-388 neither
reads mutable per-call state nor writes any. -/
structure AgentState where
  agent_id : String
  agent_name : String
deriving DecidableEq, Repr

/-- One invocation of the buyer fallback heuristic as a state-passing
call: it returns the fallback proposal and the (unchanged) agent
state. -/
def buyerFallbackRun (s : AgentState) (product_name : String)
    (initial : ℚ) (budget : Option ℚ) : NegResponse × AgentState :=
  (buyerFallback product_name initial budget, s)

/-- The offer list of the spec example: prices 100 (agreed), 80
(agreed), 60 (not agreed). -/
def exampleOffers : List Offer :=
  [ { merchant_agent_id := "m1", negotiated_price := 100, agreed := true },
    { merchant_agent_id := "m2", negotiated_price := 80, agreed := true },
    { merchant_agent_id := "m3", negotiated_price := 60, agreed := false } ]

/-- A parsed decision-service response with every field missing. -/
def emptyRaw : RawResult :=
  { message := none, proposed_price := none, accept := none,
    reject := none, reason := none }

/-! ## Claim theorems -/

/-- Claim C10: `execute_x402_payment` is exception-total at its boundary —
for every environment it returns a dictionary whose `status` is either
`"success"` or `"error"`; every internal failure, including the fatal
address-mismatch and misdirected-recipient `ValueError`s, surfaces as a
returned error dictionary rather than a propagated exception. -/
theorem settlement_exception_total (env : SettlementEnv) :
    (executeX402Payment env).statusStr = "success" ∨
    (executeX402Payment env).statusStr = "error" := by
  cases h : executeX402Payment env <;> simp [PayOutcome.statusStr]

/-- Claim C9: the buyer fallback heuristic is a pure function of its
inputs with no hidden state — invoking it twice with identical inputs
(threading the agent state through the first call) yields an identical
proposal in every field, and the agent state is unchanged. -/
theorem buyer_fallback_idempotent (s : AgentState) (product_name : String)
    (initial : ℚ) (budget : Option ℚ) :
    (buyerFallbackRun s product_name initial budget).1 =
      (buyerFallbackRun (buyerFallbackRun s product_name initial budget).2
        product_name initial budget).1 ∧
    (buyerFallbackRun s product_name initial budget).2 = s :=
  ⟨rfl, rfl⟩

/-- Claim C8 (counterexample): with a last known price of 500 and an
initial price of 1000, a parsed buyer response with no fields defaults
`proposed_price` to `initial * 0.9 = 900`, not to the last known price
500 — refuting the claim that both agents default the proposed price to
the last known price. -/
theorem buyer_missing_price_defaults_to_initial_times_09 :
    (negotiateWithMerchant "Phone" 1000
        [⟨1, "merchant", "m", 500, false, false⟩]
        none (.parsed "txt" emptyRaw)).proposed_price = 900 ∧
    clientCurrentPrice 1000
        [⟨1, "merchant", "m", 500, false, false⟩] = 500 ∧
    (900 : ℚ) ≠ 500 := by
  refine ⟨?_, ?_, by norm_num⟩
  · norm_num [negotiateWithMerchant, processBuyerParsed, clientCurrentPrice,
      emptyRaw]
  · norm_num [clientCurrentPrice]

/-- Claim C8 (amended): on a successfully parsed decision-service
response with missing fields, both agents default `accept = false`,
`reject = false`, `reason = "Negotiating"` and the message to the raw
response text; the seller defaults `proposed_price` to the buyer's
current offer (the last known price of the negotiation), while the buyer
defaults it to `initialPrice * 0.9` (stated here without a budget, where
the subsequent budget-enforcement overrides do not fire). -/
theorem parsed_missing_fields_defaults (text product_name : String)
    (pct : Option ℚ) (initial buyer_offer : ℚ) (conv : List Msg) :
    negotiateWithBuyer pct product_name initial buyer_offer
        (.parsed text emptyRaw) =
      { message := text, proposed_price := buyer_offer, accept := false,
        reject := false, reason := "Negotiating" } ∧
    negotiateWithMerchant product_name initial conv none
        (.parsed text emptyRaw) =
      { message := text, proposed_price := initial * 0.9, accept := false,
        reject := false, reason := "Negotiating" } :=
  ⟨rfl, rfl⟩

/-- Claim C3 (counterexample): a run that exits the round loop with
`agreed = True` at price 900 against budget 850 (the client accepted
900 while the pre-acceptance guard only checked the stale reference
price 800) is demoted by the post-loop check, but its recorded final
status is `"failed"`, not the `"rejected"` the claim requires. -/
theorem stale_acceptance_recorded_as_failed :
    (runNegotiation (some 850) 800 5
        (fun _ _ => some ⟨"I accept", 900, true, false, "r"⟩)
        (fun _ _ _ => none)).agreed = true ∧
    (850 : ℚ) < (runNegotiation (some 850) 800 5
        (fun _ _ => some ⟨"I accept", 900, true, false, "r"⟩)
        (fun _ _ _ => none)).current_price ∧
    finalStatus (some 850) (finalCheck (some 850)
      (runNegotiation (some 850) 800 5
        (fun _ _ => some ⟨"I accept", 900, true, false, "r"⟩)
        (fun _ _ _ => none))) = "failed" := by
  refine ⟨?_, ?_, ?_⟩ <;>
    norm_num [runNegotiation, negotiationLoop, roundStep, clientPhase,
      initLoopState, exceedsBudget, finalCheck, finalStatus, withinBudget,
      lastTwo]

/-- Claim C3 (amended): after the round loop, if the agreed flag is set
but the current price exceeds the budget (stale acceptance), the agreed
flag is cleared and the recorded final status is a non-agreed terminal
value — `"rejected"` when one of the last two transcript entries carries
`reject=true`, otherwise `"failed"`; it is never `"agreed"`. -/
theorem post_loop_budget_check_forces_non_agreed (b : ℚ) (st : LoopState)
    (hA : st.agreed = true) (hB : b < st.current_price) :
    (finalCheck (some b) st).agreed = false ∧
    finalStatus (some b) (finalCheck (some b) st) =
      (if (lastTwo st.conversation).any (fun m => m.reject) then "rejected"
       else "failed") ∧
    finalStatus (some b) (finalCheck (some b) st) ≠ "agreed" := by
  have hc : exceedsBudget (some b) st.current_price = true := by
    simp [exceedsBudget, hB]
  have h1 : finalCheck (some b) st =
      { st with
        agreed := false
        final_message := "Negotiation failed: Final price exceeds budget" } := by
    unfold finalCheck
    simp [hA, hc]
  rw [h1]
  refine ⟨rfl, ?_, ?_⟩
  · simp [finalStatus, lastTwo]
  · simp only [finalStatus, Bool.false_and, Bool.false_eq_true, if_false]
    split <;> simp

/-- Claim C3 (witness for the amended theorem): at a concrete post-loop
state with `agreed = true`, price 900, budget 850 and no rejecting
transcript entries, the check clears the agreed flag and the status is
not `"agreed"`. -/
theorem post_loop_budget_check_forces_non_agreed_witness :
    (finalCheck (some 850) ⟨[], 900, true, "m"⟩).agreed = false ∧
    finalStatus (some 850) (finalCheck (some 850) ⟨[], 900, true, "m"⟩) ≠
      "agreed" := by
  have h := post_loop_budget_check_forces_non_agreed 850 ⟨[], 900, true, "m"⟩
    rfl (by norm_num)
  exact ⟨h.1, h.2.2⟩

/-- Claim C1 (code bug evaluated at the failing input): when both
decision-service calls raise, the buyer agent's error fallback proposes
the merchant's initial price with no budget clamp
(`shopping_agent.py:390-399`), and the orchestrator appends that
over-budget proposal to the transcript — with initial price 1000 and
budget 850, a client entry with `proposed_price = 1000 > 850` reaches
the conversation. -/
theorem crashed_buyer_fallback_bypasses_budget_clamp :
    (negotiateWithMerchant "Laptop" 1000 [] (some 850)
      .crashed).proposed_price = 1000 ∧
    (stateOf (roundStep (some 850) 5
        (fun _ _ => some (negotiateWithMerchant "Laptop" 1000 [] (some 850)
          .crashed))
        (fun _ _ _ => none) 0 (initLoopState 1000))).conversation.any
      (fun m => m.sender == "client" && decide ((850 : ℚ) <
        m.proposed_price)) = true := by
  constructor
  · rfl
  · norm_num [roundStep, clientPhase, negotiateWithMerchant,
      buyerErrorFallback, initLoopState, stateOf, exceedsBudget]

/-- Claim C4: whenever the seller's response carries `accept=true` at a
price exceeding the budget, the round does not terminate as agreed: the
resulting state always has `agreed = false`, and on a non-final round
the loop continues; moreover a negotiation whose recorded final status
is `"agreed"` always has its final price within the budget, so it can
never end `"agreed"` at the over-budget price. -/
theorem over_budget_seller_acceptance_never_agreed :
    (∀ (b : ℚ) (maxRounds roundNum : Nat) (m : NegResponse) (st : LoopState),
      m.accept = true → b < m.proposed_price →
      (stateOf (merchantPhase (some b) maxRounds roundNum m st)).agreed
        = false ∧
      (m.reject = false → roundNum < maxRounds → roundNum + 1 ≠ maxRounds →
        (merchantPhase (some b) maxRounds roundNum m st).isLeft = true)) ∧
    (∀ (b : ℚ) (st : LoopState),
      finalStatus (some b) (finalCheck (some b) st) = "agreed" →
      st.current_price ≤ b) := by
  constructor
  · intro b maxRounds roundNum m st hacc hover
    have hex : exceedsBudget (some b) m.proposed_price = true := by
      simp [exceedsBudget, hover]
    cases hrej : m.reject with
    | true =>
      constructor
      · simp [merchantPhase, hrej, stateOf]
      · intro hf hlt hne
        simp [hrej] at hf
    | false =>
      constructor
      · unfold merchantPhase
        simp only [hrej, hacc, hex, if_false, if_true, Bool.false_eq_true,
          ite_false, ite_true]
        split <;> simp [stateOf]
      · intro _ hlt hne
        have hne2 : roundNum ≠ maxRounds - 1 := by omega
        unfold merchantPhase
        simp [hrej, hacc, hex, hne2]
  · intro b st h
    have hprice : (finalCheck (some b) st).current_price = st.current_price := by
      unfold finalCheck
      split <;> rfl
    unfold finalStatus at h
    split at h
    · rename_i hcond
      have hw := (Bool.and_eq_true _ _).mp hcond |>.2
      rw [hprice] at hw
      simpa [withinBudget] using hw
    · split at h <;> simp at h

/-- Claim C4 (witness): a concrete seller acceptance at 900 against
budget 850 in round 0 of 5 leaves the state not agreed and continues
the loop, and a concrete run whose status is `"agreed"` has its price
within the budget. -/
theorem over_budget_seller_acceptance_never_agreed_witness :
    (stateOf (merchantPhase (some 850) 5 0 ⟨"ok", 900, true, false, "r"⟩
      (initLoopState 1000))).agreed = false ∧
    (merchantPhase (some 850) 5 0 ⟨"ok", 900, true, false, "r"⟩
      (initLoopState 1000)).isLeft = true ∧
    (800 : ℚ) ≤ 850 := by
  have h := over_budget_seller_acceptance_never_agreed
  refine ⟨(h.1 850 5 0 ⟨"ok", 900, true, false, "r"⟩ (initLoopState 1000)
      rfl (by norm_num)).1,
    (h.1 850 5 0 ⟨"ok", 900, true, false, "r"⟩ (initLoopState 1000)
      rfl (by norm_num)).2 rfl (by norm_num) (by norm_num),
    h.2 850 ⟨[], 800, true, ""⟩ ?_⟩
  norm_num [finalStatus, finalCheck, exceedsBudget, withinBudget]

/-- Whatever branch the client half takes, its transcript is the old
transcript extended with exactly the client entry of round `rn + 1`. -/
theorem clientPhase_conv (budget : Option ℚ) (rn : Nat) (c : NegResponse)
    (st : LoopState) :
    (Sum.elim (fun x => x.1) id (clientPhase budget rn c st) :
      LoopState).conversation = st.conversation ++
      [⟨rn + 1, "client", c.message, c.proposed_price, c.accept,
        c.reject⟩] := by
  unfold clientPhase
  split_ifs <;> rfl

/-- Whatever branch the merchant half takes, its transcript is the old
transcript extended with exactly the merchant entry of round `rn + 1`. -/
theorem merchantPhase_conv (budget : Option ℚ) (maxRounds rn : Nat)
    (m0 : NegResponse) (st : LoopState) :
    (stateOf (merchantPhase budget maxRounds rn m0 st)).conversation =
      st.conversation ++
      [⟨rn + 1, "merchant", m0.message, m0.proposed_price, m0.accept,
        m0.reject⟩] := by
  unfold merchantPhase
  split_ifs <;> rfl

/-- Every transcript entry after the client half of round `rn` is either
an old entry or carries round number `rn + 1`. -/
theorem clientPhase_mem (budget : Option ℚ) (rn : Nat) (c : NegResponse)
    (st : LoopState) :
    ∀ m ∈ (Sum.elim (fun x => x.1) id (clientPhase budget rn c st) :
      LoopState).conversation, m ∈ st.conversation ∨ m.round = rn + 1 := by
  intro m hm
  rw [clientPhase_conv] at hm
  rcases List.mem_append.mp hm with h | h
  · exact Or.inl h
  · rw [List.mem_singleton] at h
    subst h
    exact Or.inr rfl

/-- Every transcript entry after the merchant half of round `rn` is
either an old entry or carries round number `rn + 1`. -/
theorem merchantPhase_mem (budget : Option ℚ) (maxRounds rn : Nat)
    (m0 : NegResponse) (st : LoopState) :
    ∀ m ∈ (stateOf (merchantPhase budget maxRounds rn m0 st)).conversation,
      m ∈ st.conversation ∨ m.round = rn + 1 := by
  intro m hm
  rw [merchantPhase_conv] at hm
  rcases List.mem_append.mp hm with h | h
  · exact Or.inl h
  · rw [List.mem_singleton] at h
    subst h
    exact Or.inr rfl

/-- Every transcript entry after one full round `rn` is either an old
entry or carries round number `rn + 1`. -/
theorem roundStep_mem (budget : Option ℚ) (maxRounds : Nat)
    (clientO : Nat → List Msg → Option NegResponse)
    (merchantO : Nat → ℚ → List Msg → Option NegResponse)
    (rn : Nat) (st : LoopState) :
    ∀ m ∈ (stateOf (roundStep budget maxRounds clientO merchantO rn
      st)).conversation, m ∈ st.conversation ∨ m.round = rn + 1 := by
  intro m hm
  unfold roundStep at hm
  cases hc : clientO rn st.conversation with
  | none =>
    simp only [hc] at hm
    exact Or.inl hm
  | some c =>
    simp only [hc] at hm
    cases hcp : clientPhase budget rn c st with
    | inr stF =>
      simp only [hcp] at hm
      have h0 := clientPhase_mem budget rn c st m
      rw [hcp] at h0
      exact h0 hm
    | inl p =>
      simp only [hcp] at hm
      cases hmo : merchantO rn p.2 p.1.conversation with
      | none =>
        simp only [hmo] at hm
        have h0 := clientPhase_mem budget rn c st m
        rw [hcp] at h0
        exact h0 hm
      | some mr =>
        simp only [hmo] at hm
        have h1 := merchantPhase_mem budget maxRounds rn mr p.1 m hm
        rcases h1 with h1 | h1
        · have h0 := clientPhase_mem budget rn c st m
          rw [hcp] at h0
          exact h0 h1
        · exact Or.inr h1

/-- Round-number bound through the loop: if every transcript entry so
far has round number at most `maxRounds` and at most `fuel ≤ maxRounds`
rounds remain, the same bound holds on loop exit. -/
theorem negotiationLoop_round_bound (budget : Option ℚ) (maxRounds : Nat)
    (clientO : Nat → List Msg → Option NegResponse)
    (merchantO : Nat → ℚ → List Msg → Option NegResponse) :
    ∀ fuel st, fuel ≤ maxRounds →
      (∀ m ∈ st.conversation, m.round ≤ maxRounds) →
      ∀ m ∈ (negotiationLoop budget maxRounds clientO merchantO fuel
        st).conversation, m.round ≤ maxRounds := by
  intro fuel
  induction fuel with
  | zero =>
    intro st _ hinv
    simpa [negotiationLoop] using hinv
  | succ f ih =>
    intro st hle hinv
    unfold negotiationLoop
    cases hstep : roundStep budget maxRounds clientO merchantO
        (maxRounds - (f + 1)) st with
    | inl st1 =>
      apply ih st1 (by omega)
      intro m hm
      have h2 := roundStep_mem budget maxRounds clientO merchantO
        (maxRounds - (f + 1)) st m (by rw [hstep]; exact hm)
      rcases h2 with h | h
      · exact hinv m h
      · omega
    | inr stF =>
      intro m hm
      have h2 := roundStep_mem budget maxRounds clientO merchantO
        (maxRounds - (f + 1)) st m (by rw [hstep]; exact hm)
      rcases h2 with h | h
      · exact hinv m h
      · omega

/-- The client half cannot set the agreed flag when the client response
does not accept. -/
theorem clientPhase_agreed_false (budget : Option ℚ) (rn : Nat)
    (c : NegResponse) (st : LoopState) (hacc : c.accept = false)
    (hag : st.agreed = false) :
    (Sum.elim (fun x => x.1) id (clientPhase budget rn c st) :
      LoopState).agreed = false := by
  unfold clientPhase
  split_ifs <;> simp_all

/-- The merchant half cannot set the agreed flag when the merchant
response does not accept. -/
theorem merchantPhase_agreed_false (budget : Option ℚ) (maxRounds rn : Nat)
    (m0 : NegResponse) (st : LoopState) (hacc : m0.accept = false)
    (hag : st.agreed = false) :
    (stateOf (merchantPhase budget maxRounds rn m0 st)).agreed = false := by
  unfold merchantPhase
  split_ifs <;> simp_all [stateOf]

/-- A full round cannot set the agreed flag when neither oracle ever
accepts. -/
theorem roundStep_agreed_false (budget : Option ℚ) (maxRounds : Nat)
    (clientO : Nat → List Msg → Option NegResponse)
    (merchantO : Nat → ℚ → List Msg → Option NegResponse)
    (rn : Nat) (st : LoopState)
    (hcl : ∀ rn conv r, clientO rn conv = some r → r.accept = false)
    (hme : ∀ rn p conv r, merchantO rn p conv = some r → r.accept = false)
    (hag : st.agreed = false) :
    (stateOf (roundStep budget maxRounds clientO merchantO rn st)).agreed
      = false := by
  unfold roundStep
  cases hc : clientO rn st.conversation with
  | none =>
    simp only [hc, stateOf, Sum.elim_inr]
    exact hag
  | some c =>
    simp only [hc]
    cases hcp : clientPhase budget rn c st with
    | inr stF =>
      have h0 := clientPhase_agreed_false budget rn c st (hcl _ _ _ hc) hag
      rw [hcp] at h0
      simpa [stateOf] using h0
    | inl p =>
      have h1 := clientPhase_agreed_false budget rn c st (hcl _ _ _ hc) hag
      rw [hcp] at h1
      simp only [Sum.elim_inl] at h1
      cases hmo : merchantO rn p.2 p.1.conversation with
      | none =>
        simp only [hmo, stateOf, Sum.elim_inr]
        exact h1
      | some mr =>
        simp only [hmo]
        exact merchantPhase_agreed_false budget maxRounds rn mr p.1
          (hme _ _ _ _ hmo) h1

/-- The loop preserves `agreed = false` when neither oracle ever
accepts. -/
theorem negotiationLoop_agreed_false (budget : Option ℚ) (maxRounds : Nat)
    (clientO : Nat → List Msg → Option NegResponse)
    (merchantO : Nat → ℚ → List Msg → Option NegResponse)
    (hcl : ∀ rn conv r, clientO rn conv = some r → r.accept = false)
    (hme : ∀ rn p conv r, merchantO rn p conv = some r → r.accept = false) :
    ∀ fuel st, st.agreed = false →
      (negotiationLoop budget maxRounds clientO merchantO fuel st).agreed
        = false := by
  intro fuel
  induction fuel with
  | zero =>
    intro st hag
    simpa [negotiationLoop] using hag
  | succ f ih =>
    intro st hag
    unfold negotiationLoop
    cases hstep : roundStep budget maxRounds clientO merchantO
        (maxRounds - (f + 1)) st with
    | inl st1 =>
      apply ih
      have := roundStep_agreed_false budget maxRounds clientO merchantO
        (maxRounds - (f + 1)) st hcl hme hag
      rw [hstep] at this
      exact this
    | inr stF =>
      have := roundStep_agreed_false budget maxRounds clientO merchantO
        (maxRounds - (f + 1)) st hcl hme hag
      rw [hstep] at this
      exact this

/-- Claim C6: for every negotiation and every `maxRounds ≥ 1` the round
loop executes at most `maxRounds` iterations — every transcript entry
carries a round number at most `maxRounds` — and if the loop exhausts
its rounds without any accepting response from either side, the
recorded terminal status is not `"agreed"`. -/
theorem negotiation_round_bound (budget : Option ℚ) (initial : ℚ)
    (maxRounds : Nat)
    (clientO : Nat → List Msg → Option NegResponse)
    (merchantO : Nat → ℚ → List Msg → Option NegResponse)
    (_hmr : 1 ≤ maxRounds) :
    (∀ m ∈ (runNegotiation budget initial maxRounds clientO
      merchantO).conversation, m.round ≤ maxRounds) ∧
    ((∀ rn conv r, clientO rn conv = some r → r.accept = false) →
     (∀ rn p conv r, merchantO rn p conv = some r → r.accept = false) →
     finalStatus budget (finalCheck budget (runNegotiation budget initial
       maxRounds clientO merchantO)) ≠ "agreed") := by
  constructor
  · exact negotiationLoop_round_bound budget maxRounds clientO merchantO
      maxRounds (initLoopState initial) le_rfl (by simp [initLoopState])
  · intro hcl hme
    have hag : (runNegotiation budget initial maxRounds clientO
        merchantO).agreed = false :=
      negotiationLoop_agreed_false budget maxRounds clientO merchantO hcl hme
        maxRounds (initLoopState initial) rfl
    have hfc : finalCheck budget (runNegotiation budget initial maxRounds
        clientO merchantO) = runNegotiation budget initial maxRounds clientO
        merchantO := by
      unfold finalCheck
      simp [hag]
    rw [hfc]
    unfold finalStatus
    rw [hag]
    simp only [Bool.false_and, Bool.false_eq_true, if_false]
    split <;> simp

/-- Claim C6 (witness): a concrete 2-round negotiation in which neither
side ever accepts has every transcript round number at most 2 and does
not end `"agreed"`. -/
theorem negotiation_round_bound_witness :
    ((runNegotiation none 100 2
        (fun _ _ => some ⟨"hi", 90, false, false, "r"⟩)
        (fun _ _ _ => some ⟨"no", 95, false, false, "r"⟩)).conversation.all
      (fun m => decide (m.round ≤ 2)) = true) ∧
    finalStatus none (finalCheck none (runNegotiation none 100 2
        (fun _ _ => some ⟨"hi", 90, false, false, "r"⟩)
        (fun _ _ _ => some ⟨"no", 95, false, false, "r"⟩))) ≠ "agreed" := by
  have h := negotiation_round_bound none 100 2
    (fun _ _ => some ⟨"hi", 90, false, false, "r"⟩)
    (fun _ _ _ => some ⟨"no", 95, false, false, "r"⟩) (by norm_num)
  refine ⟨List.all_eq_true.mpr (fun m hm => decide_eq_true (h.1 m hm)), ?_⟩
  exact h.2 (by intro rn conv r hr; cases hr; rfl)
    (by intro rn p conv r hr; cases hr; rfl)

/-- If the on-ledger query resolves the transfer recipient to the
client's own address, the verification tail never produces a success
record. -/
theorem verifyAndFinish_no_success_on_client_recipient
    (env : SettlementEnv) (mpa cw mw : Option String)
    (pr : PaymentRequest) (res : PaymentResult) (r ec : String)
    (hrec : env.onchain_recipient = some r)
    (hre : r.isEmpty = false)
    (htx : (truthy res.transaction_hash).isSome = true)
    (hec : truthy (pyOr env.client_public_address cw) = some ec)
    (haddr : addrEq r ec = true) :
    (verifyAndFinish env mpa cw mw pr res).statusStr ≠ "success" := by
  unfold verifyAndFinish
  have h1 : truthy (some r) = some r := by
    simp [truthy, hre]
  simp only [htx, if_true, hrec, h1, Option.getD_some, hec, haddr]
  split
  · split_ifs <;> simp_all [PayOutcome.statusStr]
  · split_ifs <;> simp_all [PayOutcome.statusStr]

/-- Claim C2: if the independent on-ledger verification resolves the
executed transfer's recipient to the buyer's (client's) own address,
`execute_x402_payment` never returns a `status="success"` result —
whatever success the transfer execution call itself claimed, the
internal `ValueError` of `chaoschain.py:667-680` is surfaced as a
`status="error"` dictionary. -/
theorem settlement_no_success_when_recipient_is_client
    (env : SettlementEnv) (r ec : String)
    (hrec : env.onchain_recipient = some r)
    (hre : r.isEmpty = false)
    (htx : ∀ res, env.execute_payment = some res →
      (truthy res.transaction_hash).isSome = true)
    (hec : truthy (pyOr env.client_public_address
      (env.client_wallet_load.getD none)) = some ec)
    (haddr : addrEq r ec = true) :
    (executeX402Payment env).statusStr ≠ "success" := by
  unfold executeX402Payment
  cases hcw : env.client_wallet_load with
  | none => simp [PayOutcome.statusStr]
  | some cw =>
    rw [hcw] at hec
    simp only [Option.getD_some] at hec
    cases hmw : env.merchant_wallet_load with
    | none => simp [PayOutcome.statusStr]
    | some mw =>
      by_cases hA : addrMismatch env.client_public_address cw = true
      · simp [hA, PayOutcome.statusStr]
      by_cases hB : addrMismatch env.merchant_public_address mw = true
      · simp [hA, hB, PayOutcome.statusStr]
      by_cases hC : sameWallet cw mw = true
      · simp [hA, hB, hC, PayOutcome.statusStr]
      simp only [hA, hB, hC, if_false, Bool.false_eq_true]
      by_cases hF : env.merchant_has_create = false
      · simp [hA, hB, hC, hF, PayOutcome.statusStr]
      by_cases hG : env.client_has_execute = false
      · simp [hA, hB, hC, hF, hG, PayOutcome.statusStr]
      cases hpr : env.create_payment_request with
      | none => simp [hA, hB, hC, hF, hG, PayOutcome.statusStr]
      | some pr =>
        by_cases hD : addrEq pr.settlement_address
            ((pyOr (if (truthy env.merchant_public_address).isSome = true
              then env.merchant_public_address else mw)
              (pyOr mw (some ""))).getD "") = false
        · simp [hA, hB, hC, hF, hG, hD, PayOutcome.statusStr]
        by_cases hE : (truthy env.merchant_name).isNone = true
        · simp [hA, hB, hC, hF, hG, hD, hE, PayOutcome.statusStr]
        cases hep : env.execute_payment with
        | none => simp [hA, hB, hC, hF, hG, hD, hE, PayOutcome.statusStr]
        | some res =>
          have hvf := verifyAndFinish_no_success_on_client_recipient env
            (if (truthy env.merchant_public_address).isSome = true
              then env.merchant_public_address else mw) cw mw
            pr res r ec hrec hre (htx res hep) hec haddr
          simpa [hA, hB, hC, hF, hG, hD, hE] using hvf

/-- Claim C2 (witness): a concrete environment in which the transfer
execution claims success but the ledger says the funds went back to the
client; the call does not return success. -/
theorem settlement_no_success_when_recipient_is_client_witness :
    (executeX402Payment
      { final_price := 80
        client_public_address := some "0xCLIENT"
        merchant_public_address := some "0xMERCHANT"
        client_wallet_load := some (some "0xclient")
        merchant_wallet_load := some (some "0xmerchant")
        merchant_has_create := true
        client_has_execute := true
        create_payment_request := some { settlement_address := "0xMERCHANT" }
        merchant_name := some "M"
        execute_payment := some
          { amount_paid := some 80
            total_amount := none
            protocol_fee := some 1
            transaction_hash := some "0xtx"
            settlement_address := some "0xMERCHANT" }
        onchain_recipient := some "0xCLIENT"
        store_evidence := some "cid1" }).statusStr ≠ "success" := by
  apply settlement_no_success_when_recipient_is_client _ "0xCLIENT" "0xCLIENT"
  · rfl
  · rfl
  · intro res hres
    cases hres
    rfl
  · rfl
  · simp [addrEq]

/-- Half-even rounding preserves nonnegativity. -/
theorem roundHalfEven_nonneg (q : ℚ) (h : 0 ≤ q) : 0 ≤ roundHalfEven q := by
  unfold roundHalfEven
  have hf : (0 : ℤ) ≤ ⌊q⌋ := Int.floor_nonneg.mpr h
  dsimp only
  split_ifs <;> omega

/-- Rounding to cents preserves nonnegativity. -/
theorem round2_nonneg (q : ℚ) (h : 0 ≤ q) : 0 ≤ round2 q := by
  unfold round2
  have h2 : (0 : ℤ) ≤ roundHalfEven (q * 100) :=
    roundHalfEven_nonneg _ (by positivity)
  have h3 : (0 : ℚ) ≤ (roundHalfEven (q * 100) : ℚ) := by exact_mod_cast h2
  exact div_nonneg h3 (by norm_num)

/-- Claim C7 (counterexample): with initial price 100, discount ceiling
20 and a buyer offer of 80.01, the seller fallback counters at 90 — the
code rounds both the minimum and the counter price to cents
(`merchant_agent.py:280` and `:296`) — whereas the claim's formula
`max(minimum, (initial+offer)/2)` yields 90.005. -/
theorem merchant_fallback_counter_rounded_to_cents :
    (negotiateWithBuyer (some 20) "Widget" 100 (8001/100)
      .noJson).proposed_price = 90 ∧
    merchantMinPrice 100 20 ≤ (8001/100 : ℚ) ∧
    ¬(merchantDiscount 100 (8001/100) ≤ 20 * 0.7) ∧
    max ((100 : ℚ) * (1 - 20 / 100)) ((100 + 8001/100) / 2) = 18001/200 ∧
    (90 : ℚ) ≠ 18001/200 := by
  refine ⟨?_, ?_, ?_, ?_, by norm_num⟩
  · norm_num [negotiateWithBuyer, merchantFallback, merchantMinPrice,
      merchantDiscount, round2, roundHalfEven, max_def]
  · norm_num [merchantMinPrice, round2, roundHalfEven]
  · norm_num [merchantDiscount]
  · norm_num [max_def]

/-- Claim C7 (amended): when the decision-service output fails to parse,
the deterministic fallbacks hold with the code's cent-rounding: the
buyer fallback proposes `initial * 0.9` clamped to the budget with
`accept = false`; the seller fallback with a configured ceiling `c`,
with rounded minimum `minP = round2(initial * (1 - c/100))`, accepts an
offer `≥ minP` whose requested discount is at most 70% of the ceiling,
counters at `round2(max(minP, (initial+offer)/2))` for larger requested
discounts, and sets `reject = true` exactly when the offer is more than
20% below the rounded minimum. -/
theorem fallback_heuristics (product_name : String)
    (initial c offer b : ℚ) (conv : List Msg)
    (h0 : 0 < initial) (_hc0 : 0 ≤ c) (hc1 : c ≤ 100) :
    (merchantMinPrice initial c ≤ offer →
      merchantDiscount initial offer ≤ c * 0.7 →
      (negotiateWithBuyer (some c) product_name initial offer
        .noJson).accept = true ∧
      (negotiateWithBuyer (some c) product_name initial offer
        .noJson).proposed_price = offer ∧
      (negotiateWithBuyer (some c) product_name initial offer
        .noJson).reject = false) ∧
    (merchantMinPrice initial c ≤ offer →
      ¬(merchantDiscount initial offer ≤ c * 0.7) →
      (negotiateWithBuyer (some c) product_name initial offer
        .noJson).accept = false ∧
      (negotiateWithBuyer (some c) product_name initial offer
        .noJson).reject = false ∧
      (negotiateWithBuyer (some c) product_name initial offer
        .noJson).proposed_price =
        round2 (max (merchantMinPrice initial c) ((initial + offer) / 2))) ∧
    ((negotiateWithBuyer (some c) product_name initial offer
        .noJson).reject = true ↔
      offer < merchantMinPrice initial c * 0.8) ∧
    ((negotiateWithMerchant product_name initial conv (some b)
        .noJson).proposed_price = min (initial * 0.9) b ∧
      (negotiateWithMerchant product_name initial conv (some b)
        .noJson).accept = false ∧
      (negotiateWithMerchant product_name initial conv (some b)
        .noJson).reject = false) := by
  have hminP : 0 ≤ merchantMinPrice initial c := by
    apply round2_nonneg
    have : (0 : ℚ) ≤ 1 - c / 100 := by linarith
    positivity
  refine ⟨?_, ?_, ?_, ?_, ?_, ?_⟩
  · intro h1 h2
    simp [negotiateWithBuyer, merchantFallback, h1, h2]
  · intro h1 h2
    simp [negotiateWithBuyer, merchantFallback, h1, h2]
  · by_cases hm : merchantMinPrice initial c ≤ offer
    · have hno : ¬(offer < merchantMinPrice initial c * 0.8) := by
        intro hlt
        nlinarith
      simp only [negotiateWithBuyer, merchantFallback]
      by_cases h2 : merchantDiscount initial offer ≤ c * 0.7 <;>
        simp [hm, h2, hno]
    · by_cases hr : offer < merchantMinPrice initial c * 0.8 <;>
        simp [negotiateWithBuyer, merchantFallback, hm, hr]
  · simp [negotiateWithMerchant, buyerFallback]
  · simp [negotiateWithMerchant, buyerFallback]
  · simp [negotiateWithMerchant, buyerFallback]

/-- Claim C7 (witness): initial price 1000, ceiling 20% (rounded minimum
800), buyer offer 900 (10% discount, below 70% of the ceiling) — the
seller fallback accepts at 900; and the buyer fallback with budget 850
proposes `min(1000 * 0.9, 850)`. -/
theorem fallback_heuristics_witness :
    (negotiateWithBuyer (some 20) "Phone" 1000 900 .noJson).accept = true ∧
    (negotiateWithBuyer (some 20) "Phone" 1000 900
      .noJson).proposed_price = 900 ∧
    (negotiateWithMerchant "Phone" 1000 [] (some 850)
      .noJson).proposed_price = min ((1000 : ℚ) * 0.9) 850 := by
  have h := fallback_heuristics "Phone" 1000 20 900 850 []
    (by norm_num) (by norm_num) (by norm_num)
  have hmin : merchantMinPrice 1000 20 ≤ (900 : ℚ) := by
    norm_num [merchantMinPrice, round2, roundHalfEven]
  have hdisc : merchantDiscount 1000 900 ≤ (20 : ℚ) * 0.7 := by
    norm_num [merchantDiscount]
  exact ⟨(h.1 hmin hdisc).1, (h.1 hmin hdisc).2.1, h.2.2.2.1⟩

/-- Unfolding of the Python-min fold over a cons cell. -/
theorem minFrom_cons (a b : Offer) (l : List Offer) :
    minFrom a (b :: l) =
      minFrom (if b.negotiated_price < a.negotiated_price then b else a) l :=
  rfl

/-- Membership in a price-insertion. -/
theorem mem_insertByPrice (o x : Offer) :
    ∀ l : List Offer, x ∈ insertByPrice o l ↔ x = o ∨ x ∈ l := by
  intro l
  induction l with
  | nil => simp [insertByPrice]
  | cons y ys ih =>
    unfold insertByPrice
    split_ifs with h
    · simp only [List.mem_cons]
    · simp only [List.mem_cons, ih]
      tauto

/-- Price-insertion never yields the empty list. -/
theorem insertByPrice_ne_nil (o : Offer) (l : List Offer) :
    insertByPrice o l ≠ [] := by
  cases l with
  | nil => simp [insertByPrice]
  | cons y ys =>
    unfold insertByPrice
    split_ifs <;> simp

/-- One unfolding step of the stable sort. -/
theorem sortByPrice_cons (a : Offer) (l : List Offer) :
    sortByPrice (a :: l) = insertByPrice a (sortByPrice l) :=
  rfl

/-- The stable sort preserves membership. -/
theorem mem_sortByPrice (x : Offer) :
    ∀ l : List Offer, x ∈ sortByPrice l ↔ x ∈ l := by
  intro l
  induction l with
  | nil => simp [sortByPrice]
  | cons a t ih =>
    rw [sortByPrice_cons, mem_insertByPrice]
    simp [ih]

/-- The stable sort of a list is empty exactly when the list is. -/
theorem sortByPrice_eq_nil_iff (l : List Offer) :
    sortByPrice l = [] ↔ l = [] := by
  cases l with
  | nil => simp [sortByPrice]
  | cons a t =>
    rw [sortByPrice_cons]
    simp [insertByPrice_ne_nil]

/-- Folding the Python min over an insertion is folding it over the
cons: the insertion reorders but the running minimum is unchanged. -/
theorem minFrom_insertByPrice (a : Offer) :
    ∀ (l : List Offer) (c : Offer),
      minFrom c (insertByPrice a l) = minFrom c (a :: l) := by
  intro l
  induction l with
  | nil => intro c; rfl
  | cons x xs ih =>
    intro c
    unfold insertByPrice
    by_cases hax : a.negotiated_price ≤ x.negotiated_price
    · rw [if_pos hax]
    · rw [if_neg hax]
      have hxa : x.negotiated_price < a.negotiated_price := not_le.mp hax
      rw [minFrom_cons c x (insertByPrice a xs), ih]
      rw [minFrom_cons, minFrom_cons, minFrom_cons]
      congr 1
      split_ifs <;> first | rfl | (exfalso; linarith)

/-- Folding the Python min over the stable sort is folding it over the
original list. -/
theorem minFrom_sortByPrice :
    ∀ (l : List Offer) (c : Offer), minFrom c (sortByPrice l) = minFrom c l := by
  intro l
  induction l with
  | nil => intro c; rfl
  | cons a t ih =>
    intro c
    rw [sortByPrice_cons, minFrom_insertByPrice, minFrom_cons, ih, ← minFrom_cons]

/-- Python `min` over an insertion. -/
theorem argminPrice_insertByPrice (a : Offer) (l : List Offer) :
    argminPrice (insertByPrice a l) = some (minFrom a l) := by
  cases l with
  | nil => rfl
  | cons x xs =>
    unfold insertByPrice
    by_cases hax : a.negotiated_price ≤ x.negotiated_price
    · rw [if_pos hax]
      rfl
    · rw [if_neg hax]
      have hxa : x.negotiated_price < a.negotiated_price := not_le.mp hax
      show some (minFrom x (insertByPrice a xs)) = some (minFrom a (x :: xs))
      rw [minFrom_insertByPrice, minFrom_cons, minFrom_cons]
      congr 1
      split_ifs <;> first | rfl | (exfalso; linarith)

/-- Python `min` is insensitive to the stable pre-sort: the first
minimum of the sorted list is the first minimum of the input. -/
theorem argminPrice_sortByPrice (l : List Offer) :
    argminPrice (sortByPrice l) = argminPrice l := by
  cases l with
  | nil => rfl
  | cons a t =>
    rw [sortByPrice_cons, argminPrice_insertByPrice, minFrom_sortByPrice]
    rfl

/-- Characterization of the Python min fold: the returned offer splits
the list, everything strictly before it is strictly more expensive, and
it is a lower bound of the whole list. -/
theorem minFrom_split :
    ∀ (l : List Offer) (a : Offer),
      ∃ l₁ l₂, a :: l = l₁ ++ minFrom a l :: l₂ ∧
        (∀ x ∈ l₁, (minFrom a l).negotiated_price < x.negotiated_price) ∧
        (∀ x ∈ a :: l, (minFrom a l).negotiated_price ≤ x.negotiated_price) := by
  intro l
  induction l with
  | nil =>
    intro a
    exact ⟨[], [], rfl, by simp, by simp [minFrom]⟩
  | cons b t ih =>
    intro a
    rw [minFrom_cons]
    by_cases hba : b.negotiated_price < a.negotiated_price
    · rw [if_pos hba]
      obtain ⟨l₁, l₂, hs, hf, hb⟩ := ih b
      have hrb : (minFrom b t).negotiated_price ≤ b.negotiated_price :=
        hb b (List.mem_cons_self b t)
      refine ⟨a :: l₁, l₂, ?_, ?_, ?_⟩
      · rw [List.cons_append, ← hs]
      · intro x hx
        rcases List.mem_cons.mp hx with rfl | hx
        · linarith
        · exact hf x hx
      · intro x hx
        rcases List.mem_cons.mp hx with rfl | hx
        · linarith
        · exact hb x hx
    · rw [if_neg hba]
      have hab : a.negotiated_price ≤ b.negotiated_price := le_of_not_lt hba
      obtain ⟨l₁, l₂, hs, hf, hb⟩ := ih a
      cases l₁ with
      | nil =>
        obtain ⟨ha, ht⟩ := List.cons_eq_cons.mp hs
        refine ⟨[], b :: t, ?_, by simp, ?_⟩
        · rw [List.nil_append, ← ha]
        · intro x hx
          rcases List.mem_cons.mp hx with rfl | hx
          · rw [← ha]
          · rcases List.mem_cons.mp hx with rfl | hx2
            · rw [← ha]
              exact hab
            · exact hb x (List.mem_cons_of_mem a hx2)
      | cons y l₁t =>
        obtain ⟨hy, ht⟩ := List.cons_eq_cons.mp hs
        have hra : (minFrom a t).negotiated_price < a.negotiated_price := by
          have := hf y (List.mem_cons_self y l₁t)
          rw [← hy] at this
          exact this
        refine ⟨a :: b :: l₁t, l₂, ?_, ?_, ?_⟩
        · show a :: b :: t = (a :: b :: l₁t) ++ minFrom a t :: l₂
          rw [List.cons_append, List.cons_append]
          exact congrArg (a :: ·) (congrArg (b :: ·) ht)
        · intro x hx
          rcases List.mem_cons.mp hx with rfl | hx
          · exact hra
          · rcases List.mem_cons.mp hx with rfl | hx2
            · linarith
            · exact hf x (List.mem_cons_of_mem y hx2)
        · intro x hx
          rcases List.mem_cons.mp hx with rfl | hx
          · exact le_of_lt hra
          · rcases List.mem_cons.mp hx with rfl | hx2
            · linarith
            · exact hb x (List.mem_cons_of_mem a hx2)

/-- `find?` over a split list whose prefix entirely fails the
predicate. -/
theorem find?_append_first (p : Offer → Bool) (r : Offer) :
    ∀ (l₁ l₂ : List Offer), (∀ x ∈ l₁, p x = false) → p r = true →
      List.find? p (l₁ ++ r :: l₂) = some r := by
  intro l₁
  induction l₁ with
  | nil =>
    intro l₂ _ hr
    rw [List.nil_append]
    exact List.find?_cons_of_pos _ hr
  | cons x xs ih =>
    intro l₂ hfalse hr
    rw [List.cons_append, List.find?_cons_of_neg _ (by
      simp [hfalse x (List.mem_cons_self x xs)])]
    exact ih l₂ (fun y hy => hfalse y (List.mem_cons_of_mem _ hy)) hr

/-- Python `min` with first-wins tie-breaking agrees with the spec-side
first-minimal-offer selector. -/
theorem argminPrice_eq_firstMinOffer (l : List Offer) :
    argminPrice l = firstMinOffer l := by
  cases l with
  | nil => rfl
  | cons a t =>
    obtain ⟨l₁, l₂, hs, hf, hb⟩ := minFrom_split t a
    have hrmem : minFrom a t ∈ a :: t := by
      rw [hs]
      exact List.mem_append_right _ (List.mem_cons_self _ _)
    show some (minFrom a t) = firstMinOffer (a :: t)
    unfold firstMinOffer
    rw [hs]
    refine (find?_append_first _ _ _ _ ?_ ?_).symm
    · intro x hx
      apply Bool.eq_false_iff.mpr
      intro hall
      rw [List.all_eq_true] at hall
      have h1 := hall (minFrom a t)
        (List.mem_append_right _ (List.mem_cons_self _ _))
      rw [decide_eq_true_eq] at h1
      have h2 := hf x hx
      linarith
    · rw [List.all_eq_true]
      intro y hy
      rw [decide_eq_true_eq]
      exact hb y (by rw [hs]; exact hy)

/-- Python `min` returns a member of the list. -/
theorem argminPrice_mem (l : List Offer) (r : Offer)
    (h : argminPrice l = some r) : r ∈ l := by
  cases l with
  | nil => simp [argminPrice] at h
  | cons a t =>
    obtain ⟨l₁, l₂, hs, _, _⟩ := minFrom_split t a
    have : minFrom a t = r := by
      simpa [argminPrice] using h
    rw [← this, hs]
    exact List.mem_append_right _ (List.mem_cons_self _ _)

/-- Claim C5: when the decision-service selection is unavailable, the
selection pipeline of `start_shopping` equals the spec selector: filter
to agreed-within-budget offers and pick the cheapest (first in input
order on ties, marked deal-qualifying); when the filter is empty, pick
the cheapest of all offers (first in input order on ties) and mark the
selection as not deal-qualifying.  The hypothesis records the
provenance of the offers: the orchestrator only stores `agreed = true`
on offers within budget (`shopping_service.py:362`). -/
theorem offer_selection_matches_spec (budget : Option ℚ)
    (offers : List Offer)
    (hprov : ∀ o ∈ offers, o.agreed = true →
      withinBudget budget o.negotiated_price = true) :
    serviceSelectOffer none budget offers = specSelectOffer budget offers := by
  unfold serviceSelectOffer specSelectOffer selectBestOffer
  by_cases hemp : (offers.filter
      (fun o => o.agreed && withinBudget budget o.negotiated_price)).isEmpty
  · have hnil : offers.filter
        (fun o => o.agreed && withinBudget budget o.negotiated_price) = [] :=
      List.isEmpty_iff.mp hemp
    have hnoag : ∀ o ∈ offers, o.agreed = false := by
      intro o ho
      cases hag : o.agreed with
      | false => rfl
      | true =>
        exfalso
        have hw := hprov o ho hag
        have hmem : o ∈ offers.filter
            (fun o => o.agreed && withinBudget budget o.negotiated_price) :=
          List.mem_filter.mpr ⟨ho, by simp [hag, hw]⟩
        rw [hnil] at hmem
        exact List.not_mem_nil o hmem
    simp only [hemp, if_true, hnil]
    cases offers with
    | nil => simp [sortByPrice, firstMinOffer, argminPrice]
    | cons a t =>
      have hsne : (sortByPrice (a :: t)).isEmpty = false := by
        rw [Bool.eq_false_iff]
        intro hcon
        have h2 := List.isEmpty_iff.mp hcon
        rw [sortByPrice_eq_nil_iff] at h2
        cases h2
      have hagnil : (sortByPrice (a :: t)).filter (fun o => o.agreed) = [] := by
        rw [List.filter_eq_nil_iff]
        intro x hx
        have hxm := (mem_sortByPrice x (a :: t)).mp hx
        simp [hnoag x hxm]
      simp only [hsne, Bool.false_eq_true, if_false, hagnil,
        List.isEmpty_nil, if_true]
      rw [argminPrice_sortByPrice, argminPrice_eq_firstMinOffer]
      cases hfm : firstMinOffer (a :: t) with
      | none => simp [firstMinOffer]
      | some r =>
        have hrmem : r ∈ a :: t := argminPrice_mem _ r
          (by rw [argminPrice_eq_firstMinOffer]; exact hfm)
        simp [firstMinOffer, hnoag r hrmem]
  · have hemp2 : (offers.filter
        (fun o => o.agreed && withinBudget budget o.negotiated_price)).isEmpty
        = false := by
      rw [Bool.eq_false_iff]
      exact hemp
    have hself : (offers.filter
        (fun o => o.agreed && withinBudget budget o.negotiated_price)).filter
          (fun o => o.agreed) =
        offers.filter
          (fun o => o.agreed && withinBudget budget o.negotiated_price) := by
      apply List.filter_eq_self.mpr
      intro x hx
      exact ((Bool.and_eq_true _ _).mp (List.mem_filter.mp hx).2).1
    simp only [hemp2, Bool.false_eq_true, if_false, hself]
    rw [argminPrice_eq_firstMinOffer]
    cases hfm : firstMinOffer (offers.filter
        (fun o => o.agreed && withinBudget budget o.negotiated_price)) with
    | none =>
      exfalso
      cases hfl : offers.filter
          (fun o => o.agreed && withinBudget budget o.negotiated_price) with
      | nil =>
        rw [hfl] at hemp2
        simp at hemp2
      | cons x xs =>
        rw [hfl] at hfm
        rw [← argminPrice_eq_firstMinOffer] at hfm
        simp [argminPrice] at hfm
    | some r =>
      have hrmem : r ∈ offers.filter
          (fun o => o.agreed && withinBudget budget o.negotiated_price) :=
        argminPrice_mem _ r
          (by rw [argminPrice_eq_firstMinOffer]; exact hfm)
      have hr2 := (List.mem_filter.mp hrmem).2
      simp [hr2]

/-- Claim C5 (witness): on the spec example — prices 100 (agreed), 80
(agreed), 60 (not agreed), no budget — the pipeline agrees with the
spec selector and picks the 80 offer, marked deal-qualifying. -/
theorem offer_selection_matches_spec_witness :
    serviceSelectOffer none none exampleOffers =
      specSelectOffer none exampleOffers ∧
    serviceSelectOffer none none exampleOffers =
      some (⟨"m2", 80, true⟩, true) := by
  constructor
  · exact offer_selection_matches_spec none exampleOffers
      (fun o _ _ => rfl)
  · decide
